import Mathlib

/-!
Verification of the maus_dash core against its specification.

This file gives a shallow embedding, in Lean 4, of the two core components of
the repository: the event bus (`src/backend/core/event_bus.py`) and the module
lifecycle manager (`src/backend/core/module_loader.py`), together with theorems
settling the spec claims about them.

Modelling conventions:
* Python `dict`s (which preserve insertion order) are modelled as association
  lists `List (String × α)`; assignment `d[k] = v` replaces the value at the
  first occurrence of `k` in place, or appends `(k, v)` at the end, exactly as
  a Python dict keeps the original key position on overwrite.
* Python's `list.sort(key=..., reverse=True)` is a stable sort; we model it by
  a stable insertion sort `sortByPrioDesc` (any two stable sorts by the same
  key agree, so this is the same function on lists).
* Handler callbacks are opaque: a handler is identified by its `handlerId`
  (the Python code uses `uuid4`; we model the freshness of uuids by a counter
  on the bus).  Dispatch returns the list of handlers invoked, in order.
* `datetime` values (file modification times) are modelled as `Nat`,
  `asyncio` lifecycle hooks (`pre_initialize` … `post_cleanup`) are modelled
  as succeeding no-ops, and `emit` appends the event type to an event log.
-/

namespace MausDash

/-! ### Ordered dictionaries (Python `dict` semantics) -/

/-- Lookup in an insertion-ordered dictionary (`d.get(k)` / `d[k]`). -/
def dictFind? {α : Type} (d : List (String × α)) (k : String) : Option α :=
  (d.find? (fun p => p.1 == k)).map (·.2)

/-- Assignment `d[k] = v`: replace the first binding of `k` in place,
or append at the end if `k` is absent. -/
def dictSet {α : Type} (d : List (String × α)) (k : String) (v : α) :
    List (String × α) :=
  match d with
  | [] => [(k, v)]
  | (k', v') :: rest =>
      if k' = k then (k, v) :: rest else (k', v') :: dictSet rest k v

/-- Deletion `del d[k]` (removes every binding of `k`; on the no-duplicate
dictionaries produced by `dictSet` this is the single binding). -/
def dictErase {α : Type} (d : List (String × α)) (k : String) :
    List (String × α) :=
  d.filter (fun p => p.1 ≠ k)


/-! ### Stable sort by descending priority

`EventBus.on` and `EventBus._handle_event` both run
`handlers.sort(key=lambda h: h.priority, reverse=True)`: a stable sort that
orders handlers by descending `priority`, equal-priority handlers keeping
their relative order.  `insertByPrioDesc` inserts an element after every
element of strictly greater priority and before the first element of equal or
smaller priority; folding it over the list from the right yields exactly that
stable sort. -/

structure EventHandler where
  pattern : String
  once : Bool
  priority : Int
  handlerId : Nat
deriving DecidableEq, Repr

def insertByPrioDesc (h : EventHandler) : List EventHandler → List EventHandler
  | [] => [h]
  | x :: xs =>
      if h.priority < x.priority then x :: insertByPrioDesc h xs
      else h :: x :: xs

def sortByPrioDesc : List EventHandler → List EventHandler
  | [] => []
  | x :: xs => insertByPrioDesc x (sortByPrioDesc xs)

/-- Predicate `TieOrdered l` states that equal-priority handlers occur in order of
ascending `handlerId` — since the bus hands out ids in registration order,
this is exactly "ties are in registration order". -/
def TieOrdered (l : List EventHandler) : Prop :=
  l.Pairwise (fun a b => a.priority = b.priority → a.handlerId < b.handlerId)


/-! ### Pattern matching (`EventBus._match_pattern`)

The Python code builds `regex_pattern = pattern.replace('*', '.*').replace('?', '.')`
and tests `re.match(f'^{regex_pattern}$', event_type)`.  Over patterns made of
ordinary characters plus `*`, `?` and `.` (no other regex metacharacters
appear in this repository's patterns), the resulting regex consists of
literals, the wildcard atom `.` (from a literal `.` or a `?` in the pattern),
and `.*` (from a `*` in the pattern).  `RTok` is that token alphabet and
`globTokens` is the translation; `tokensMatch` is anchored regex matching. -/

inductive RTok where
  | anyRun
  | anyChar
  | lit (c : Char)
deriving DecidableEq, Repr

/-- Token translation of `pattern.replace('*', '.*').replace('?', '.')`:
`*` becomes the any-run atom `.*`, `?` becomes `.`, and a literal `.` of the
pattern is an (unescaped!) regex `.`, i.e. also matches any one character. -/
def globTokens (pattern : List Char) : List RTok :=
  pattern.map fun c =>
    if c = '*' then RTok.anyRun
    else if c = '?' then RTok.anyChar
    else if c = '.' then RTok.anyChar
    else RTok.lit c

/-- Anchored matching of the token list against the whole string.  The
backtracking semantics of the regex atom `.*` is: the rest of the regex must
match some suffix of the remaining input (`s.tails.any`). -/
def tokensMatch : List RTok → List Char → Bool
  | [], s => s.isEmpty
  | RTok.anyRun :: ts, s => s.tails.any (tokensMatch ts)
  | RTok.anyChar :: _, [] => false
  | RTok.anyChar :: ts, _ :: s => tokensMatch ts s
  | RTok.lit _ :: _, [] => false
  | RTok.lit c :: ts, d :: s => c = d && tokensMatch ts s

/-- Model of `EventBus._match_pattern`: exact equality first; wildcard translation is
attempted only when the pattern contains a `*` (a `?` alone gets no wildcard
treatment); otherwise no match. -/
def matchPattern (eventType pattern : String) : Bool :=
  if pattern = eventType then true
  else if pattern.toList.contains '*' then
    tokensMatch (globTokens pattern.toList) eventType.toList
  else false

/-! ### The event bus -/

/-- State of the `EventBus`: the `local_handlers` dict (pattern → bucket, in key
insertion order), the running flag, whether a Redis relay is configured, and
the id counter modelling `uuid4` freshness for `handler_id`s. -/
structure EventBus where
  localHandlers : List (String × List EventHandler)
  isRunning : Bool
  hasRedis : Bool
  nextId : Nat
deriving DecidableEq, Repr

/-- Model of `EventBus.on(event_type, once, priority)`: append the new handler to the
pattern's bucket and re-sort the bucket by descending priority (stable, so
equal priorities keep registration order).  Returns the new bus and the
handler id. -/
def EventBus.on (bus : EventBus) (eventType : String) (once : Bool)
    (priority : Int) : EventBus × Nat :=
  let h : EventHandler := ⟨eventType, once, priority, bus.nextId⟩
  let bucket := (dictFind? bus.localHandlers eventType).getD []
  let bucket' := sortByPrioDesc (bucket ++ [h])
  ({ bus with
      localHandlers := dictSet bus.localHandlers eventType bucket'
      nextId := bus.nextId + 1 },
    bus.nextId)

/-- Model of `EventBus.off(event_type, handler_id)`: with an id, filter that handler
out of the bucket; with `None`, delete the whole bucket. -/
def EventBus.off (bus : EventBus) (eventType : String)
    (handlerId? : Option Nat) : EventBus :=
  match dictFind? bus.localHandlers eventType with
  | none => bus
  | some bucket =>
      match handlerId? with
      | some hid =>
          { bus with
              localHandlers := dictSet bus.localHandlers eventType
                (bucket.filter (fun h => h.handlerId ≠ hid)) }
      | none =>
          { bus with localHandlers := dictErase bus.localHandlers eventType }

/-- The `handlers_to_call` list of `EventBus._handle_event`: walk the handler
dict in insertion order, collect every bucket whose pattern matches, then
stable-sort the concatenation by descending priority. -/
def handlersToCall (bus : EventBus) (eventType : String) : List EventHandler :=
  sortByPrioDesc
    (((bus.localHandlers.filter (fun pb => matchPattern eventType pb.1)).map
      (·.2)).flatten)

/-- The handler table after `EventBus._handle_event`: every matched bucket
loses every handler whose `handler_id` equals the id of some `once` handler
of that bucket (the net effect of the sequential `handlers_to_remove`
loop). -/
def handleEventTable (bus : EventBus) (eventType : String) :
    List (String × List EventHandler) :=
  bus.localHandlers.map fun pb =>
    if matchPattern eventType pb.1 then
      (pb.1, pb.2.filter fun h =>
        ¬ pb.2.any fun g => g.once && g.handlerId == h.handlerId)
    else pb

/-- Model of `EventBus._handle_event`: invoke the matching handlers (returned in
invocation order), then drop the `once` handlers that fired. -/
def handleEvent (bus : EventBus) (eventType : String) :
    List EventHandler × EventBus :=
  (handlersToCall bus eventType,
    { bus with localHandlers := handleEventTable bus eventType })

/-- Payload values: the event-bus metadata needs strings and booleans;
`num` covers caller-supplied numeric data. -/
inductive PVal where
  | s (v : String)
  | b (v : Bool)
  | num (n : Int)
deriving DecidableEq, Repr

/-- The `event_data` dict built by `emit`: the caller's `data` spread first,
then the metadata keys `_event_type`, `_timestamp` and `_local_only` set on
top of it — existing keys are overwritten in place, new keys appended. -/
def augmentPayload (data : List (String × PVal)) (eventType now : String)
    (localOnly : Bool) : List (String × PVal) :=
  dictSet (dictSet (dictSet data "_event_type" (PVal.s eventType))
    "_timestamp" (PVal.s now)) "_local_only" (PVal.b localOnly)

structure EmitResult where
  invoked : List EventHandler
  payload : List (String × PVal)
  forwardedToRedis : Bool
  bus : EventBus
deriving Repr

/-- Model of `EventBus.emit`: build the metadata-augmented payload, dispatch to local
handlers unconditionally, and forward to the Redis relay only when
`local_only` is false, the bus is running and a relay is configured. -/
def emit (bus : EventBus) (eventType : String) (data : List (String × PVal))
    (now : String) (localOnly : Bool) : EmitResult :=
  let eventData := augmentPayload data eventType now localOnly
  let r := handleEvent bus eventType
  { invoked := r.1
    payload := eventData
    forwardedToRedis := !localOnly && bus.isRunning && bus.hasRedis
    bus := r.2 }

/-- The timeout path of `EventBus.request_response`: derive the private
response event type, register a `once` handler on it, emit the request
(augmented with `_request_id` and `_response_event`), and — since no responder
publishes to the private type — hit `asyncio.TimeoutError`, unregister the
whole private bucket via `off`, and raise `TimeoutError`. -/
def requestResponseTimeout (bus : EventBus) (eventType : String)
    (data : List (String × PVal)) (now requestId : String) :
    EventBus × String :=
  let responseEvent := eventType ++ ".response." ++ requestId
  let bus1 := (bus.on responseEvent true 0).1
  let requestData := dictSet (dictSet data "_request_id" (PVal.s requestId))
    "_response_event" (PVal.s responseEvent)
  let r := emit bus1 eventType requestData now false
  ((r.bus.off responseEvent none), "Request timeout for " ++ eventType)

/-- Well-formedness of a bus: every registered handler id is below the id
counter, and every bucket keeps equal-priority handlers in id (= registration)
order.  Both hold for the bus as built by `EventBus.on` from empty. -/
def BusWF (bus : EventBus) : Prop :=
  ∀ pb ∈ bus.localHandlers,
    TieOrdered pb.2 ∧ ∀ h ∈ pb.2, h.handlerId < bus.nextId


/-! ### The module lifecycle manager (`src/backend/core/module_loader.py`)

`ModuleLoader` keeps two dicts: `modules` (name → live `BaseModule` instance)
and `module_info` (name → `ModuleInfo` record); both are modelled as ordered
association lists.  A live instance is modelled by its identity (`instId`,
fresh per construction, standing for Python object identity), its `state`
field, and its `_dependencies` / `_dependents` sets (modelled as lists).
Lifecycle hooks (`pre_initialize` … `post_cleanup`) are modelled as
succeeding; `emit` calls append the event type to an event log. -/

inductive ModuleState where
  | unloaded
  | loading
  | loaded
  | initializing
  | ready
  | error
  | unloading
deriving DecidableEq, Repr

structure ModuleInstance where
  instId : Nat
  name : String
  state : ModuleState
  dependencies : List String
  dependents : List String
deriving DecidableEq, Repr

structure ModuleInfo where
  name : String
  path : String
  state : ModuleState
  error : Option String
  reloadCount : Nat
  lastModified : Option Nat
deriving DecidableEq, Repr

structure LoaderState where
  modules : List (String × ModuleInstance)
  moduleInfo : List (String × ModuleInfo)
  nextInstId : Nat
  events : List String
deriving DecidableEq, Repr

/-- The filesystem and extension environment the loader runs against:
`fileMtime path` is the modification time of `path/module.py` (`none` when the
file is absent), and `factoryDeps name` is the dependency set the extension's
`create_module` factory declares on its fresh instance. -/
structure LoaderEnv where
  fileMtime : String → Option Nat
  factoryDeps : String → List String

/-- Update the record under `name` in `module_info` if present (the code
guards record updates with `if module_name in self.module_info`). -/
def updateInfo (infos : List (String × ModuleInfo)) (name : String)
    (f : ModuleInfo → ModuleInfo) : List (String × ModuleInfo) :=
  match dictFind? infos name with
  | some i => dictSet infos name (f i)
  | none => infos

/-- Outcome of a loader operation: the state after the operation together
with `.ok ()` (returned normally) or `.error msg` (the exception re-raised
to the caller). -/
structure OpResult where
  state : LoaderState
  result : Except String Unit
deriving Repr

/-- Set a record's state (used for the `LOADING`/`UNLOADING`/`READY`/
`UNLOADED` transitions on `module_info`). -/
def setInfoState (infos : List (String × ModuleInfo)) (name : String)
    (st : ModuleState) : List (String × ModuleInfo) :=
  updateInfo infos name (fun i => { i with state := st })

/-- Mark a record `ERROR` with the given message (the `except` blocks of
`load_module` / `unload_module`). -/
def markInfoError (infos : List (String × ModuleInfo)) (name msg : String) :
    List (String × ModuleInfo) :=
  updateInfo infos name
    (fun i => { i with state := ModuleState.error, error := some msg })

/-- Write the optimistically incremented reload counter back
(`self.module_info[module_name].reload_count = reload_count`). -/
def setReloadCount (infos : List (String × ModuleInfo)) (name : String)
    (rc : Nat) : List (String × ModuleInfo) :=
  updateInfo infos name (fun i => { i with reloadCount := rc })

/-- Discard `name` from the `_dependents` set of the loaded module `dep`
(one step of the `for dep_name in module.get_dependencies()` loop of
`unload_module`). -/
def detachDependent (name : String) (m : List (String × ModuleInstance))
    (dep : String) : List (String × ModuleInstance) :=
  match dictFind? m dep with
  | some dInst => dictSet m dep
      { dInst with dependents := dInst.dependents.filter (· ≠ name) }
  | none => m

/-- The dependency-conflict message of `ModuleLoader.unload_module`. -/
def conflictMsg (name : String) (dependents : List String) : String :=
  "Cannot unload " ++ name ++ ": modules " ++ String.intercalate ", " dependents
    ++ " depend on it. Use force=True to override."

/-- First half of `ModuleLoader.load_module` (everything before the
`initialize` lifecycle hooks, which may suspend): the already-loaded
early-return, the entry-point check, the fresh `ModuleInfo` record (note:
`reload_count` starts at 0 even when an older record existed), the
`module.loading` event and construction of the instance via the entry point's
`create_module`. -/
inductive LoadPhase1Result where
  | alreadyLoaded (s : LoaderState)
  | failed (s : LoaderState) (msg : String)
  | proceeding (s : LoaderState) (inst : ModuleInstance)
deriving Repr

def loadPhase1 (env : LoaderEnv) (s : LoaderState) (name path : String) :
    LoadPhase1Result :=
  if (dictFind? s.modules name).isSome then
    LoadPhase1Result.alreadyLoaded s
  else
    match env.fileMtime path with
    | none =>
        let msg := "module.py not found in " ++ path
        let infos' :=
          match dictFind? s.moduleInfo name with
          | some _ => markInfoError s.moduleInfo name msg
          | none => dictSet s.moduleInfo name
              ⟨name, path, ModuleState.error, some msg, 0, none⟩
        LoadPhase1Result.failed
          { s with moduleInfo := infos'
                   events := s.events ++ ["module.load_error"] } msg
    | some t =>
        let info : ModuleInfo :=
          ⟨name, path, ModuleState.initializing, none, 0, some t⟩
        let inst : ModuleInstance :=
          ⟨s.nextInstId, name, ModuleState.initializing,
            env.factoryDeps name, []⟩
        LoadPhase1Result.proceeding
          { s with moduleInfo := dictSet s.moduleInfo name info
                   nextInstId := s.nextInstId + 1
                   events := s.events ++ ["module.loading"] } inst

/-- Second half of `ModuleLoader.load_module` (after the hooks): mark the
instance and record `READY`, store the instance in `modules`, emit
`module.loaded`. -/
def loadPhase2 (s : LoaderState) (name : String) (inst : ModuleInstance) :
    LoaderState :=
  { s with
      modules := dictSet s.modules name { inst with state := ModuleState.ready }
      moduleInfo := setInfoState s.moduleInfo name ModuleState.ready
      events := s.events ++ ["module.loaded"] }

/-- Model of `ModuleLoader.load_module(name, path)` (the whole body runs under
`self._loading_lock`). -/
def loadModule (env : LoaderEnv) (s : LoaderState) (name path : String) :
    OpResult :=
  match loadPhase1 env s name path with
  | LoadPhase1Result.alreadyLoaded s' => ⟨s', Except.ok ()⟩
  | LoadPhase1Result.failed s' msg => ⟨s', Except.error msg⟩
  | LoadPhase1Result.proceeding s' inst => ⟨loadPhase2 s' name inst, Except.ok ()⟩

/-- Model of `ModuleLoader.unload_module(name, force)`: early return when not loaded;
dependency check (`ValueError` re-raised after marking the record `ERROR`
with an `"Unload error: "`-prefixed message, while the live instance stays in
`modules` untouched); otherwise the full cleanup path: `UNLOADING` states,
`module.unloading` event, cleanup hooks, discarding `name` from the
`_dependents` set of every loaded module in the unloaded instance's
`_dependencies`, removal from `modules`, record set `UNLOADED`, and the
`module.unloaded` event. -/
def unloadModule (s : LoaderState) (name : String) (force : Bool) : OpResult :=
  match dictFind? s.modules name with
  | none => ⟨s, Except.ok ()⟩
  | some inst =>
      if !force && !inst.dependents.isEmpty then
        let msg := conflictMsg name inst.dependents
        ⟨{ s with moduleInfo :=
            markInfoError s.moduleInfo name ("Unload error: " ++ msg) },
          Except.error msg⟩
      else
        let s1 :=
          { s with
              modules := dictSet s.modules name
                { inst with state := ModuleState.unloading }
              moduleInfo := setInfoState s.moduleInfo name ModuleState.unloading
              events := s.events ++ ["module.unloading"] }
        let s2 :=
          { s1 with
              modules := inst.dependencies.foldl (detachDependent name)
                s1.modules }
        let s3 :=
          { s2 with
              modules := dictErase s2.modules name
              moduleInfo := setInfoState s2.moduleInfo name ModuleState.unloaded
              events := s2.events ++ ["module.unloaded"] }
        ⟨s3, Except.ok ()⟩

/-- Model of `ModuleLoader.reload_module(name, force)`: early return when no record;
hot-reload short-circuit when the entry-point file's mtime has not increased
and `force` is false; otherwise read `reload_count + 1` into a local,
unload if loaded, load from the record's path, write the incremented counter
back, and emit `module.reloaded` — or emit `module.reload_error` and re-raise
on failure.  Note the counter read and write happen outside the lock. -/
def reloadModule (env : LoaderEnv) (s : LoaderState) (name : String)
    (force : Bool) : OpResult :=
  match dictFind? s.moduleInfo name with
  | none => ⟨s, Except.ok ()⟩
  | some info =>
      let skip :=
        match env.fileMtime info.path, info.lastModified with
        | some cur, some last => cur ≤ last && !force
        | _, _ => false
      if skip then ⟨s, Except.ok ()⟩
      else
        let rc := info.reloadCount + 1
        let step1 :=
          if (dictFind? s.modules name).isSome then unloadModule s name force
          else ⟨s, Except.ok ()⟩
        match step1.result with
        | Except.error msg =>
            ⟨{ step1.state with
                events := step1.state.events ++ ["module.reload_error"] },
              Except.error msg⟩
        | Except.ok () =>
            let step2 := loadModule env step1.state name info.path
            match step2.result with
            | Except.error msg =>
                ⟨{ step2.state with
                    events := step2.state.events ++ ["module.reload_error"] },
                  Except.error msg⟩
            | Except.ok () =>
                ⟨{ step2.state with
                    moduleInfo := setReloadCount step2.state.moduleInfo name rc
                    events := step2.state.events ++ ["module.reloaded"] },
                  Except.ok ()⟩

/-- Keys of the `modules` dict are duplicate-free ("at most one live
instance per name"). -/
def NodupKeys {α : Type} (d : List (String × α)) : Prop :=
  (d.map Prod.fst).Nodup

/-! ### Interleaving machine for concurrent `reload_module` calls

`reload_module` itself does not hold `self._loading_lock`; only the
`load_module` / `unload_module` bodies it awaits do.  Under asyncio's
cooperative scheduler a task may therefore be suspended and interleaved with
another `reload_module` task at the `await` points.  Each task below runs
`reload_module(name, force=True)` against an already-loaded module, split
into the atomic sections between suspension points:

* pc 0 — the synchronous prefix: record lookup, mtime short-circuit (skipped,
  `force=True`), the read `rc := info.reload_count + 1`, and the
  `name in self.modules` test;
* pc 1 — the awaited `unload_module` call (its body runs under the lock; a
  schedule in which none of its interior awaits yields is realizable, so it
  is one atomic section here; its pre-lock `not in modules` check falls
  through to pc 2 without the lock);
* pc 2 — `load_module` up to the `initialize` lifecycle hooks (requires the
  lock; the already-loaded early return releases it immediately);
* pc 3 — rest of `load_module` after the hooks (store instance, `READY`,
  release the lock) — the hooks are extension code and may genuinely yield,
  which is what lets another task run between pc 2 and pc 3;
* pc 4 — back in `reload_module`: write `reload_count := rc`, emit
  `module.reloaded`;
* pc 5 — done.

A step scheduled for a task that is blocked on the lock (or finished) is a
no-op. -/

structure RTask where
  pc : Nat
  rc : Nat
  savedInst : Option ModuleInstance
deriving DecidableEq, Repr

structure MachineState where
  shared : LoaderState
  lockHolder : Option Nat
  tasks : List RTask
deriving DecidableEq, Repr

def setTask (ms : MachineState) (i : Nat) (t : RTask) : MachineState :=
  { ms with tasks := ms.tasks.set i t }

def machineStep (env : LoaderEnv) (name path : String) (ms : MachineState)
    (i : Nat) : MachineState :=
  match ms.tasks[i]? with
  | none => ms
  | some t =>
      match t.pc with
      | 0 =>
          match dictFind? ms.shared.moduleInfo name with
          | none => setTask ms i { t with pc := 5 }
          | some info =>
              let pc' := if (dictFind? ms.shared.modules name).isSome
                then 1 else 2
              setTask ms i { t with rc := info.reloadCount + 1, pc := pc' }
      | 1 =>
          if (dictFind? ms.shared.modules name).isNone then
            setTask ms i { t with pc := 2 }
          else if ms.lockHolder = none then
            setTask
              { ms with shared := (unloadModule ms.shared name true).state }
              i { t with pc := 2 }
          else ms
      | 2 =>
          if ms.lockHolder = none then
            match loadPhase1 env ms.shared name path with
            | LoadPhase1Result.alreadyLoaded s' =>
                setTask { ms with shared := s' } i { t with pc := 4 }
            | LoadPhase1Result.failed s' _ =>
                setTask { ms with shared := s' } i { t with pc := 5 }
            | LoadPhase1Result.proceeding s' inst =>
                setTask { ms with shared := s', lockHolder := some i } i
                  { t with savedInst := some inst, pc := 3 }
          else ms
      | 3 =>
          match t.savedInst with
          | some inst =>
              setTask
                { ms with shared := loadPhase2 ms.shared name inst
                          lockHolder := none }
                i { t with pc := 4 }
          | none => ms
      | 4 =>
          setTask
            { ms with shared :=
                { ms.shared with
                    moduleInfo := setReloadCount ms.shared.moduleInfo name t.rc
                    events := ms.shared.events ++ ["module.reloaded"] } }
            i { t with pc := 5 }
      | _ => ms

def runSchedule (env : LoaderEnv) (name path : String) (ms : MachineState)
    (schedule : List Nat) : MachineState :=
  schedule.foldl (machineStep env name path) ms

/-! ### Concrete demonstration states -/

/-- Bus with three priority-0 handlers: id 0 under `"x.*"`, id 1 under
`"x.a"`, id 2 under `"x.*"` — registered in id order. -/
def demoBusC1 : EventBus :=
  (((EventBus.mk [] false false 0).on "x.*" false 0).1.on "x.a" false 0).1.on
    "x.*" false 0 |>.1

/-- Module `A` is loaded with `B` registered as a dependent; `B` is loaded
and declares `A` among its dependencies (the wiring the integration test
builds via `add_dependency`/`add_dependent`). -/
def instA : ModuleInstance := ⟨0, "A", ModuleState.ready, [], ["B"]⟩

def instB : ModuleInstance := ⟨1, "B", ModuleState.ready, ["A"], []⟩

def infoA : ModuleInfo := ⟨"A", "mods/A", ModuleState.ready, none, 0, some 10⟩

def infoB : ModuleInfo := ⟨"B", "mods/B", ModuleState.ready, none, 0, some 10⟩

def demoLoaderState : LoaderState :=
  ⟨[("A", instA), ("B", instB)], [("A", infoA), ("B", infoB)], 2, []⟩

/-- Filesystem where both entry points exist with mtime 10, and factories
declare no dependencies. -/
def demoEnv : LoaderEnv :=
  ⟨fun p => if p = "mods/A" then some 10
    else if p = "mods/B" then some 10 else none,
   fun _ => []⟩

/-- Filesystem after touching `B`'s entry point (mtime 10 → 11). -/
def demoEnvTouchedB : LoaderEnv :=
  ⟨fun p => if p = "mods/A" then some 10
    else if p = "mods/B" then some 11 else none,
   fun _ => []⟩

/-- Initial state for the concurrent-reload run: one module `m`, loaded,
reload counter 0, entry point `mods/m` with mtime 5. -/
def instM : ModuleInstance := ⟨0, "m", ModuleState.ready, [], []⟩

def infoM : ModuleInfo := ⟨"m", "mods/m", ModuleState.ready, none, 0, some 5⟩

def initC8 : MachineState :=
  ⟨⟨[("m", instM)], [("m", infoM)], 1, []⟩, none, [⟨0, 0, none⟩, ⟨0, 0, none⟩]⟩

def envC8 : LoaderEnv := ⟨fun p => if p = "mods/m" then some 5 else none,
  fun _ => []⟩

/-- The demonstrating interleaving: task 0 runs its prefix, its unload and
the first half of its load; task 1 then runs its prefix (reading the counter
still at 0) while task 0 is suspended in the `initialize` hook; task 0
finishes its load and writes counter 1; task 1's load hits the already-loaded
early return and task 1 also writes counter 1. -/
def finalC8 : MachineState :=
  runSchedule envC8 "m" "mods/m" initC8 [0, 0, 0, 1, 0, 0, 1, 1]

/-! ## Proofs: supporting lemmas -/

theorem dictFind?_cons {α : Type} (k' : String) (v' : α)
    (rest : List (String × α)) (q : String) :
    dictFind? ((k', v') :: rest) q =
      if k' = q then some v' else dictFind? rest q := by
  by_cases h : k' = q
  · simp [dictFind?, List.find?, h]
  · simp [dictFind?, List.find?, h,
      (beq_eq_false_iff_ne (a := k') (b := q)).mpr h]

theorem dictFind?_dictSet_self {α : Type} (d : List (String × α)) (k : String)
    (v : α) : dictFind? (dictSet d k v) k = some v := by
  induction d with
  | nil => simp [dictFind?, dictSet, List.find?]
  | cons p rest ih =>
      obtain ⟨k', v'⟩ := p
      by_cases h : k' = k
      · simp [dictSet, h, dictFind?_cons]
      · simp only [dictSet, if_neg h]
        rw [dictFind?_cons, if_neg h]
        exact ih

theorem dictFind?_dictSet_ne {α : Type} (d : List (String × α)) (k q : String)
    (v : α) (h : q ≠ k) : dictFind? (dictSet d k v) q = dictFind? d q := by
  induction d with
  | nil =>
      simp [dictFind?, dictSet, List.find?,
        (beq_eq_false_iff_ne (a := k) (b := q)).mpr (Ne.symm h)]
  | cons p rest ih =>
      obtain ⟨k', v'⟩ := p
      by_cases hp : k' = k
      · subst hp
        rw [show dictSet ((k', v') :: rest) k' v = (k', v) :: rest from by
          simp [dictSet]]
        rw [dictFind?_cons, dictFind?_cons,
          if_neg (Ne.symm h), if_neg (Ne.symm h)]
      · simp only [dictSet, if_neg hp]
        rw [dictFind?_cons, dictFind?_cons]
        by_cases hq : k' = q
        · simp [hq]
        · rw [if_neg hq, if_neg hq]; exact ih

theorem dictFind?_dictErase_self {α : Type} (d : List (String × α))
    (k : String) : dictFind? (dictErase d k) k = none := by
  induction d with
  | nil => simp [dictFind?, dictErase]
  | cons p rest ih =>
      obtain ⟨k', v'⟩ := p
      by_cases h : k' = k
      · have he : dictErase ((k', v') :: rest) k = dictErase rest k := by
          simp [dictErase, h]
        rw [he]; exact ih
      · have he : dictErase ((k', v') :: rest) k = (k', v') :: dictErase rest k := by
          simp [dictErase, h]
        rw [he, dictFind?_cons, if_neg h]; exact ih

theorem mem_dictSet {α : Type} {d : List (String × α)} {k : String} {v : α}
    {p : String × α} (hp : p ∈ dictSet d k v) : p ∈ d ∨ p = (k, v) := by
  induction d with
  | nil => simpa [dictSet] using hp
  | cons q rest ih =>
      obtain ⟨k', v'⟩ := q
      by_cases h : k' = k
      · rw [dictSet, if_pos h] at hp
        rcases List.mem_cons.mp hp with hp | hp
        · right; exact hp
        · left; exact List.mem_cons_of_mem _ hp
      · rw [dictSet, if_neg h] at hp
        rcases List.mem_cons.mp hp with hp | hp
        · left; exact hp ▸ List.mem_cons_self _ _
        · rcases ih hp with h' | h'
          · left; exact List.mem_cons_of_mem _ h'
          · right; exact h'

theorem mem_insertByPrioDesc {a h : EventHandler} {l : List EventHandler} :
    a ∈ insertByPrioDesc h l ↔ a = h ∨ a ∈ l := by
  induction l with
  | nil => simp [insertByPrioDesc]
  | cons x xs ih =>
      by_cases hc : h.priority < x.priority
      · simp only [insertByPrioDesc, if_pos hc, List.mem_cons, ih]
        tauto
      · simp only [insertByPrioDesc, if_neg hc, List.mem_cons]

theorem mem_sortByPrioDesc {a : EventHandler} {l : List EventHandler} :
    a ∈ sortByPrioDesc l ↔ a ∈ l := by
  induction l with
  | nil => simp [sortByPrioDesc]
  | cons x xs ih =>
      simp [sortByPrioDesc, mem_insertByPrioDesc, ih]

theorem filter_insertByPrioDesc (p : Int) (h : EventHandler)
    (l : List EventHandler) :
    (insertByPrioDesc h l).filter (fun x => x.priority = p) =
      if h.priority = p then
        h :: l.filter (fun x => x.priority = p)
      else l.filter (fun x => x.priority = p) := by
  induction l with
  | nil => by_cases hp : h.priority = p <;> simp [insertByPrioDesc, hp]
  | cons x xs ih =>
      by_cases hc : h.priority < x.priority
      · rw [insertByPrioDesc, if_pos hc]
        by_cases hp : h.priority = p
        · have hxp : ¬ x.priority = p := by
            intro hx
            exact absurd (hp ▸ hc) (by simp [hx])
          simp [List.filter_cons, ih, hp, hxp]
        · simp [List.filter_cons, ih, hp]
      · rw [insertByPrioDesc, if_neg hc]
        by_cases hp : h.priority = p
        · simp [List.filter_cons, hp]
        · simp [List.filter_cons, hp]

/-- Stability of the sort: at each priority level, the sorted list contains
exactly the handlers of the original list, in the original order. -/
theorem filter_sortByPrioDesc (p : Int) (l : List EventHandler) :
    (sortByPrioDesc l).filter (fun x => x.priority = p) =
      l.filter (fun x => x.priority = p) := by
  induction l with
  | nil => rfl
  | cons x xs ih =>
      by_cases hp : x.priority = p
      · simp [sortByPrioDesc, filter_insertByPrioDesc, hp, List.filter, ih]
      · simp [sortByPrioDesc, filter_insertByPrioDesc, hp, List.filter, ih]

theorem pairwise_insertByPrioDesc {h : EventHandler} {l : List EventHandler}
    (hl : l.Pairwise (fun a b => b.priority ≤ a.priority)) :
    (insertByPrioDesc h l).Pairwise (fun a b => b.priority ≤ a.priority) := by
  induction l with
  | nil => simp [insertByPrioDesc]
  | cons x xs ih =>
      rcases List.pairwise_cons.mp hl with ⟨hx, hxs⟩
      by_cases hc : h.priority < x.priority
      · rw [insertByPrioDesc, if_pos hc]
        refine List.pairwise_cons.mpr ⟨?_, ih hxs⟩
        intro b hb
        rcases mem_insertByPrioDesc.mp hb with rfl | hb
        · exact le_of_lt hc
        · exact hx b hb
      · rw [insertByPrioDesc, if_neg hc]
        refine List.pairwise_cons.mpr ⟨?_, hl⟩
        intro b hb
        rcases List.mem_cons.mp hb with rfl | hb
        · exact not_lt.mp hc
        · exact le_trans (hx b hb) (not_lt.mp hc)

/-- The sort produces a list ordered by descending priority. -/
theorem pairwise_sortByPrioDesc (l : List EventHandler) :
    (sortByPrioDesc l).Pairwise (fun a b => b.priority ≤ a.priority) := by
  induction l with
  | nil => simp [sortByPrioDesc]
  | cons x xs ih => exact pairwise_insertByPrioDesc ih

/-- A stable sort preserves the relative order of equal-priority handlers. -/
theorem tieOrdered_sortByPrioDesc {l : List EventHandler} (hl : TieOrdered l) :
    TieOrdered (sortByPrioDesc l) := by
  rw [TieOrdered, List.pairwise_iff_forall_sublist]
  intro a b hab hpr
  have hfil : List.Sublist ([a, b].filter (fun x => x.priority = a.priority))
      ((sortByPrioDesc l).filter (fun x => x.priority = a.priority)) :=
    hab.filter _
  rw [filter_sortByPrioDesc] at hfil
  have : [a, b].filter (fun x => x.priority = a.priority) = [a, b] := by
    simp [List.filter, hpr]
  rw [this] at hfil
  have hsub : List.Sublist [a, b] l :=
    hfil.trans (List.filter_sublist l)
  exact (List.pairwise_iff_forall_sublist.mp hl) hsub hpr

theorem dictFind?_mem {α : Type} {d : List (String × α)} {k : String} {v : α}
    (h : dictFind? d k = some v) : (k, v) ∈ d := by
  unfold dictFind? at h
  cases hf : d.find? (fun p => p.1 == k) with
  | none => rw [hf] at h; simp at h
  | some p =>
      rw [hf] at h
      have hm := List.mem_of_find?_eq_some hf
      have hk : p.1 = k := by simpa using List.find?_some hf
      have hv : p.2 = v := by simpa using h
      have : p = (k, v) := by
        obtain ⟨p1, p2⟩ := p
        simp only at hk hv
        rw [hk, hv]
      exact this ▸ hm

/-- A handler is invoked by `_handle_event` exactly when it sits in some
bucket of the table whose pattern matches the event type. -/
theorem mem_handlersToCall {bus : EventBus} {ev : String} {h : EventHandler} :
    h ∈ handlersToCall bus ev ↔
      ∃ pb, pb ∈ bus.localHandlers ∧ matchPattern ev pb.1 = true ∧ h ∈ pb.2 := by
  unfold handlersToCall
  rw [mem_sortByPrioDesc, List.mem_flatten]
  constructor
  · rintro ⟨l, hl, hh⟩
    rcases List.mem_map.mp hl with ⟨pb, hpb, rfl⟩
    rcases List.mem_filter.mp hpb with ⟨hpbm, hmatch⟩
    exact ⟨pb, hpbm, by simpa using hmatch, hh⟩
  · rintro ⟨pb, hpbm, hmatch, hh⟩
    exact ⟨pb.2, List.mem_map.mpr
      ⟨pb, List.mem_filter.mpr ⟨hpbm, by simpa using hmatch⟩, rfl⟩, hh⟩

/-- The invoked-handler list of `_handle_event` is drawn from the table. -/
theorem handleEvent_called_mem_table {bus : EventBus} {ev : String}
    {h : EventHandler} (hc : h ∈ (handleEvent bus ev).1) :
    ∃ pb, pb ∈ bus.localHandlers ∧ h ∈ pb.2 := by
  rcases mem_handlersToCall.mp hc with ⟨pb, hpb, _, hh⟩
  exact ⟨pb, hpb, hh⟩

theorem dictFind?_dictErase_ne {α : Type} (d : List (String × α)) (k q : String)
    (h : q ≠ k) : dictFind? (dictErase d k) q = dictFind? d q := by
  induction d with
  | nil => rfl
  | cons p rest ih =>
      obtain ⟨k', v'⟩ := p
      by_cases hk : k' = k
      · have he : dictErase ((k', v') :: rest) k = dictErase rest k := by
          simp [dictErase, hk]
        rw [he, ih, dictFind?_cons, if_neg (by rw [hk]; exact Ne.symm h)]
      · have he : dictErase ((k', v') :: rest) k = (k', v') :: dictErase rest k := by
          simp [dictErase, hk]
        rw [he, dictFind?_cons, dictFind?_cons]
        by_cases hq : k' = q
        · simp [hq]
        · rw [if_neg hq, if_neg hq]; exact ih

theorem dictFind?_updateInfo_self (infos : List (String × ModuleInfo))
    (name : String) (f : ModuleInfo → ModuleInfo) :
    dictFind? (updateInfo infos name f) name =
      (dictFind? infos name).map f := by
  unfold updateInfo
  cases hf : dictFind? infos name with
  | none => rw [hf]; rfl
  | some i => rw [dictFind?_dictSet_self]; rfl

theorem dictFind?_updateInfo_ne (infos : List (String × ModuleInfo))
    (name q : String) (f : ModuleInfo → ModuleInfo) (h : q ≠ name) :
    dictFind? (updateInfo infos name f) q = dictFind? infos q := by
  unfold updateInfo
  cases hf : dictFind? infos name with
  | none => rfl
  | some i => rw [dictFind?_dictSet_ne _ _ _ _ h]

/-- One detach step only touches the entry under `dep`. -/
theorem dictFind?_detachDependent_ne (name : String)
    (m : List (String × ModuleInstance)) (dep q : String) (h : q ≠ dep) :
    dictFind? (detachDependent name m dep) q = dictFind? m q := by
  unfold detachDependent
  cases hf : dictFind? m dep with
  | none => rfl
  | some dInst => rw [dictFind?_dictSet_ne _ _ _ _ h]

theorem dictFind?_detachDependent_self (name : String)
    (m : List (String × ModuleInstance)) (dep : String) :
    dictFind? (detachDependent name m dep) dep =
      (dictFind? m dep).map
        (fun d => { d with dependents := d.dependents.filter (· ≠ name) }) := by
  unfold detachDependent
  cases hf : dictFind? m dep with
  | none => rw [hf]; rfl
  | some dInst => rw [dictFind?_dictSet_self]; rfl

/-- Net effect on lookups of the `for dep_name in module.get_dependencies()`
detach loop of `unload_module`. -/
theorem dictFind?_detachFold (name : String) (deps : List String)
    (m : List (String × ModuleInstance)) (q : String) :
    dictFind? (deps.foldl (detachDependent name) m) q =
      if q ∈ deps then
        (dictFind? m q).map
          (fun d => { d with dependents := d.dependents.filter (· ≠ name) })
      else dictFind? m q := by
  induction deps generalizing m with
  | nil => simp
  | cons d0 rest ih =>
      rw [List.foldl_cons, ih]
      by_cases hq0 : q = d0
      · subst hq0
        rw [dictFind?_detachDependent_self]
        by_cases hqr : q ∈ rest
        · rw [if_pos hqr, if_pos (List.mem_cons_self q rest)]
          cases dictFind? m q with
          | none => rfl
          | some d =>
              simp only [Option.map]
              congr 1
              simp [List.filter_filter]
        · rw [if_neg hqr, if_pos (List.mem_cons_self q rest)]
      · rw [dictFind?_detachDependent_ne _ _ _ _ hq0]
        by_cases hqr : q ∈ rest
        · rw [if_pos hqr, if_pos (List.mem_cons_of_mem d0 hqr)]
        · rw [if_neg hqr, if_neg (by simp [hq0, hqr])]

theorem mem_keys_dictSet {α : Type} {d : List (String × α)} {k q : String}
    {v : α} (h : q ∈ (dictSet d k v).map Prod.fst) :
    q ∈ d.map Prod.fst ∨ q = k := by
  rcases List.mem_map.mp h with ⟨p, hp, rfl⟩
  rcases mem_dictSet hp with hp' | hp'
  · exact Or.inl (List.mem_map.mpr ⟨p, hp', rfl⟩)
  · exact Or.inr (by rw [hp'])

theorem nodupKeys_dictSet {α : Type} {d : List (String × α)} (k : String)
    (v : α) (h : NodupKeys d) : NodupKeys (dictSet d k v) := by
  induction d with
  | nil => simp [NodupKeys, dictSet]
  | cons p rest ih =>
      obtain ⟨k', v'⟩ := p
      rw [NodupKeys, List.map_cons, List.nodup_cons] at h
      obtain ⟨hnotin, hrest⟩ := h
      by_cases hk : k' = k
      · subst hk
        have hd : dictSet ((k', v') :: rest) k' v = (k', v) :: rest := by
          simp [dictSet]
        rw [NodupKeys, hd, List.map_cons, List.nodup_cons]
        exact ⟨hnotin, hrest⟩
      · rw [NodupKeys]
        simp only [dictSet, if_neg hk, List.map_cons, List.nodup_cons]
        refine ⟨?_, ih hrest⟩
        intro hmem
        rcases mem_keys_dictSet hmem with hmem' | hmem'
        · exact hnotin hmem'
        · exact hk hmem'

theorem nodupKeys_dictErase {α : Type} {d : List (String × α)} (k : String)
    (h : NodupKeys d) : NodupKeys (dictErase d k) := by
  have hs : List.Sublist (dictErase d k) d := List.filter_sublist d
  exact List.Nodup.sublist (hs.map Prod.fst) h

theorem nodupKeys_detachDependent {m : List (String × ModuleInstance)}
    (name dep : String) (h : NodupKeys m) :
    NodupKeys (detachDependent name m dep) := by
  unfold detachDependent
  cases dictFind? m dep with
  | none => exact h
  | some dInst => exact nodupKeys_dictSet _ _ h

theorem nodupKeys_detachFold {m : List (String × ModuleInstance)}
    (name : String) (deps : List String) (h : NodupKeys m) :
    NodupKeys (deps.foldl (detachDependent name) m) := by
  induction deps generalizing m with
  | nil => exact h
  | cons d0 rest ih =>
      rw [List.foldl_cons]
      exact ih (nodupKeys_detachDependent name d0 h)

/-- Lemma: `load_module` never mutates the `modules` table except by the single
`dictSet` of the success path; keys stay duplicate-free. -/
theorem nodupKeys_loadModule (env : LoaderEnv) (s : LoaderState)
    (name path : String) (h : NodupKeys s.modules) :
    NodupKeys (loadModule env s name path).state.modules := by
  unfold loadModule loadPhase1 loadPhase2
  by_cases hl : (dictFind? s.modules name).isSome
  · simp only [if_pos hl]; exact h
  · simp only [if_neg hl]
    cases env.fileMtime path with
    | none => exact h
    | some t => exact nodupKeys_dictSet _ _ h

theorem nodupKeys_unloadModule (s : LoaderState) (name : String)
    (force : Bool) (h : NodupKeys s.modules) :
    NodupKeys (unloadModule s name force).state.modules := by
  unfold unloadModule
  cases dictFind? s.modules name with
  | none => exact h
  | some inst =>
      by_cases hc : (!force && !inst.dependents.isEmpty) = true
      · simp only [if_pos hc]; exact h
      · simp only [if_neg hc]
        exact nodupKeys_dictErase _
          (nodupKeys_detachFold _ _ (nodupKeys_dictSet _ _ h))

theorem nodupKeys_reloadModule (env : LoaderEnv) (s : LoaderState)
    (name : String) (force : Bool) (h : NodupKeys s.modules) :
    NodupKeys (reloadModule env s name force).state.modules := by
  unfold reloadModule
  cases dictFind? s.moduleInfo name with
  | none => exact h
  | some info =>
      by_cases hskip : (match env.fileMtime info.path, info.lastModified with
        | some cur, some last => cur ≤ last && !force
        | _, _ => false) = true
      · simp only [if_pos hskip]; exact h
      · simp only [if_neg hskip]
        by_cases hl : (dictFind? s.modules name).isSome
        · simp only [if_pos hl]
          have h1 := nodupKeys_unloadModule s name force h
          cases hr : (unloadModule s name force).result with
          | error msg => simp only [hr]; exact h1
          | ok u =>
              cases u
              simp only [hr]
              have h2 := nodupKeys_loadModule env
                (unloadModule s name force).state name info.path h1
              cases hr2 : (loadModule env (unloadModule s name force).state
                  name info.path).result with
              | error msg => simp only [hr2]; exact h2
              | ok u2 => cases u2; simp only [hr2]; exact h2
        · simp only [if_neg hl]
          have h2 := nodupKeys_loadModule env s name info.path h
          cases hr2 : (loadModule env s name info.path).result with
          | error msg => simp only [hr2]; exact h2
          | ok u2 => cases u2; simp only [hr2]; exact h2

/-- The success path of `unload_module` in one equation. -/
theorem unloadModule_ok (s : LoaderState) (name : String) (force : Bool)
    (inst : ModuleInstance) (hm : dictFind? s.modules name = some inst)
    (hcond : (!force && !inst.dependents.isEmpty) = false) :
    unloadModule s name force =
      ⟨⟨dictErase (inst.dependencies.foldl (detachDependent name)
          (dictSet s.modules name
            { inst with state := ModuleState.unloading })) name,
        setInfoState (setInfoState s.moduleInfo name ModuleState.unloading)
          name ModuleState.unloaded,
        s.nextInstId,
        s.events ++ ["module.unloading"] ++ ["module.unloaded"]⟩,
       Except.ok ()⟩ := by
  unfold unloadModule
  simp only [hm]
  rw [if_neg (show ¬ ((!force && !inst.dependents.isEmpty) = true) from by
    rw [hcond]; exact Bool.false_ne_true)]

/-- The success path of `load_module` on a not-loaded name whose entry point
exists, in one equation. -/
theorem loadModule_fresh (env : LoaderEnv) (s : LoaderState)
    (name path : String) (t : Nat)
    (hnot : dictFind? s.modules name = none)
    (hfile : env.fileMtime path = some t) :
    loadModule env s name path =
      ⟨loadPhase2
        { s with
            moduleInfo := dictSet s.moduleInfo name
              ⟨name, path, ModuleState.initializing, none, 0, some t⟩
            nextInstId := s.nextInstId + 1
            events := s.events ++ ["module.loading"] }
        name
        ⟨s.nextInstId, name, ModuleState.initializing,
          env.factoryDeps name, []⟩,
       Except.ok ()⟩ := by
  unfold loadModule loadPhase1
  simp only [hnot, Option.isSome_none, Bool.false_eq_true, if_false, hfile]

/-! ## Claims -/

/-- C2, evaluation of the code at the claim's own examples.  The claim says
`a.*` matches `a.b` and `a.b.c` but NOT `ab`, and that `a.?` matches `a.b`
but not `a.bc`.  The code's conversion does not escape the pattern's literal
`.` (so in `a.*` the `.` matches the character `b` of `ab`) and applies
wildcard translation only when the pattern contains a `*` (so `a.?` matches
nothing but the literal string `a.?`): `matchPattern "ab" "a.*"` is `true`
and `matchPattern "a.b" "a.?"` is `false`, contradicting the intended
shell-style wildcard semantics the code's own comment announces. -/
theorem matchPattern_code_eval :
    matchPattern "ab" "a.*" = true ∧
    matchPattern "a.b" "a.?" = false ∧
    matchPattern "a.b" "a.*" = true ∧
    matchPattern "a.b.c" "a.*" = true ∧
    matchPattern "b.a" "a.*" = false ∧
    matchPattern "a.bc" "a.?" = false := by
  decide

/-- C3: loading a name that already holds a live instance returns without
error and without touching any state (in particular it constructs no second
instance: the instance-id counter is unchanged and the stored instance is
the original one), and the three mutating operations preserve the
at-most-one-instance-per-name invariant of the `modules` table. -/
theorem load_idempotent_single_instance :
    (∀ (env : LoaderEnv) (s : LoaderState) (name path : String)
      (inst : ModuleInstance), dictFind? s.modules name = some inst →
        loadModule env s name path = ⟨s, Except.ok ()⟩) ∧
    (∀ (env : LoaderEnv) (s : LoaderState) (name path : String),
      NodupKeys s.modules →
        NodupKeys (loadModule env s name path).state.modules) ∧
    (∀ (s : LoaderState) (name : String) (force : Bool),
      NodupKeys s.modules →
        NodupKeys (unloadModule s name force).state.modules) ∧
    (∀ (env : LoaderEnv) (s : LoaderState) (name : String) (force : Bool),
      NodupKeys s.modules →
        NodupKeys (reloadModule env s name force).state.modules) := by
  refine ⟨?_, nodupKeys_loadModule, nodupKeys_unloadModule,
    nodupKeys_reloadModule⟩
  intro env s name path inst h
  unfold loadModule loadPhase1
  rw [if_pos (by rw [h]; rfl)]

/-- Witness for C3 at a concrete state: `A` is loaded in `demoLoaderState`,
and loading it again returns the state unchanged with no error. -/
theorem load_idempotent_single_instance_witness :
    loadModule demoEnv demoLoaderState "A" "mods/A" =
      ⟨demoLoaderState, Except.ok ()⟩ :=
  load_idempotent_single_instance.1 demoEnv demoLoaderState "A" "mods/A"
    instA (by decide)

/-- C9: when `unload_module(name, force=False)` hits the dependency
conflict, the raised error carries the conflict message, the live instance
is still stored unchanged in `modules` (so `get_module(name)` still returns
it, its own `state` field untouched), yet the record has been flipped to
`ERROR` with the `"Unload error: "`-prefixed conflict message — the failure
is not atomic on the bookkeeping state. -/
theorem unload_conflict_nonatomic (s : LoaderState) (name : String)
    (inst : ModuleInstance) (info : ModuleInfo)
    (hm : dictFind? s.modules name = some inst)
    (hi : dictFind? s.moduleInfo name = some info)
    (hdep : inst.dependents.isEmpty = false) :
    (unloadModule s name false).result =
      Except.error (conflictMsg name inst.dependents) ∧
    dictFind? (unloadModule s name false).state.modules name = some inst ∧
    dictFind? (unloadModule s name false).state.moduleInfo name =
      some { info with
              state := ModuleState.error,
              error := some ("Unload error: " ++
                conflictMsg name inst.dependents) } := by
  have hcond : (!false && !inst.dependents.isEmpty) = true := by
    rw [hdep]; rfl
  unfold unloadModule
  simp only [hm, if_pos hcond]
  refine ⟨trivial, trivial, ?_⟩
  unfold markInfoError
  rw [dictFind?_updateInfo_self, hi]
  rfl

/-- Witness for C9: failing to unload `A` (dependent: `B`) leaves `instA`
live in the table while its record is `ERROR` with the prefixed message. -/
theorem unload_conflict_nonatomic_witness :
    (unloadModule demoLoaderState "A" false).result =
      Except.error (conflictMsg "A" ["B"]) ∧
    dictFind? (unloadModule demoLoaderState "A" false).state.modules "A" =
      some instA ∧
    dictFind? (unloadModule demoLoaderState "A" false).state.moduleInfo "A" =
      some { infoA with
              state := ModuleState.error,
              error := some ("Unload error: " ++ conflictMsg "A" ["B"]) } :=
  unload_conflict_nonatomic demoLoaderState "A" instA infoA (by decide)
    (by decide) (by decide)

/-- Lemma: `off(event_type, None)` leaves no binding under the key, whether or not
one existed. -/
theorem off_none_erases (b : EventBus) (k : String) :
    dictFind? ((b.off k none).localHandlers) k = none := by
  unfold EventBus.off
  cases hf : dictFind? b.localHandlers k with
  | none => simp only [hf]
  | some bucket => simp only [hf]; exact dictFind?_dictErase_self _ _

/-- C7: the timeout path of `request_response` raises the timeout error and
leaves no handler registered under the derived private response event type
`event_type ++ ".response." ++ request_id` — repeated timeouts cannot
accumulate leftover registrations. -/
theorem request_timeout_no_residual (bus : EventBus) (eventType : String)
    (data : List (String × PVal)) (now requestId : String) :
    dictFind? ((requestResponseTimeout bus eventType data now
        requestId).1.localHandlers)
      (eventType ++ ".response." ++ requestId) = none ∧
    (requestResponseTimeout bus eventType data now requestId).2 =
      "Request timeout for " ++ eventType :=
  ⟨off_none_erases _ _, rfl⟩

/-- C10: `emit` dispatches to exactly the locally matching handlers, with an
invocation list that does not depend on the running flag or on the relay
(publishing works identically while the bus is stopped); only the relay
forwarding is gated on `local_only`, `is_running` and a configured relay;
and the delivered payload is the caller's payload with `_event_type`,
`_timestamp` and `_local_only` set, overwriting caller-supplied keys of the
same names and leaving every other key untouched. -/
theorem emit_dispatch_metadata (bus : EventBus) (ev : String)
    (data : List (String × PVal)) (now : String) (lo : Bool) :
    (∀ running redis : Bool,
      (emit { bus with isRunning := running, hasRedis := redis } ev data now
        lo).invoked = (emit bus ev data now lo).invoked) ∧
    (∀ h : EventHandler, h ∈ (emit bus ev data now lo).invoked ↔
      ∃ pb, pb ∈ bus.localHandlers ∧ matchPattern ev pb.1 = true ∧
        h ∈ pb.2) ∧
    (emit bus ev data now lo).forwardedToRedis =
      (!lo && bus.isRunning && bus.hasRedis) ∧
    dictFind? (emit bus ev data now lo).payload "_event_type" =
      some (PVal.s ev) ∧
    dictFind? (emit bus ev data now lo).payload "_timestamp" =
      some (PVal.s now) ∧
    dictFind? (emit bus ev data now lo).payload "_local_only" =
      some (PVal.b lo) ∧
    (∀ k : String, k ≠ "_event_type" → k ≠ "_timestamp" →
      k ≠ "_local_only" →
      dictFind? (emit bus ev data now lo).payload k = dictFind? data k) := by
  refine ⟨fun _ _ => rfl, fun h => mem_handlersToCall, rfl, ?_, ?_, ?_, ?_⟩
  · show dictFind? (augmentPayload data ev now lo) "_event_type" = _
    unfold augmentPayload
    rw [dictFind?_dictSet_ne _ _ _ _ (by decide),
      dictFind?_dictSet_ne _ _ _ _ (by decide), dictFind?_dictSet_self]
  · show dictFind? (augmentPayload data ev now lo) "_timestamp" = _
    unfold augmentPayload
    rw [dictFind?_dictSet_ne _ _ _ _ (by decide), dictFind?_dictSet_self]
  · show dictFind? (augmentPayload data ev now lo) "_local_only" = _
    unfold augmentPayload
    rw [dictFind?_dictSet_self]
  · intro k h1 h2 h3
    show dictFind? (augmentPayload data ev now lo) k = _
    unfold augmentPayload
    rw [dictFind?_dictSet_ne _ _ _ _ h3, dictFind?_dictSet_ne _ _ _ _ h2,
      dictFind?_dictSet_ne _ _ _ _ h1]

/-- Witness for C10 on a stopped bus (`demoBusC1.isRunning = false`): all
three matching handlers are invoked anyway, nothing is forwarded to the
relay, and the delivered payload has the metadata plus the caller's key. -/
theorem emit_dispatch_metadata_witness :
    (emit demoBusC1 "x.a" [("k", PVal.num 7)] "TS" false).forwardedToRedis =
      false ∧
    dictFind? (emit demoBusC1 "x.a" [("k", PVal.num 7)] "TS"
      false).payload "_event_type" = some (PVal.s "x.a") ∧
    dictFind? (emit demoBusC1 "x.a" [("k", PVal.num 7)] "TS"
      false).payload "k" = some (PVal.num 7) ∧
    (emit demoBusC1 "x.a" [("k", PVal.num 7)] "TS" false).invoked.map
      (·.handlerId) = [0, 2, 1] :=
  ⟨((emit_dispatch_metadata demoBusC1 "x.a" [("k", PVal.num 7)] "TS"
      false).2.2.1).trans (by decide),
   (emit_dispatch_metadata demoBusC1 "x.a" [("k", PVal.num 7)] "TS"
      false).2.2.2.1,
   ((emit_dispatch_metadata demoBusC1 "x.a" [("k", PVal.num 7)] "TS"
      false).2.2.2.2.2.2 "k" (by decide) (by decide) (by decide)).trans
      (by decide),
   by decide⟩

/-- C6: a `once` handler sitting in a bucket whose pattern matches the
published event type is invoked on that publish, and afterwards no handler
with its id is left anywhere in the handler table (so it is absent from
`get_stats` listings), and no subsequent publish of any event type invokes
it again.  The uniqueness hypothesis says the handler's id occurs only at
its own registration — true of the bus, which draws ids from `uuid4`. -/
theorem once_handler_single_fire (bus : EventBus) (ev p : String)
    (b : List EventHandler) (h : EventHandler)
    (hpb : (p, b) ∈ bus.localHandlers)
    (hh : h ∈ b)
    (honce : h.once = true)
    (hmatch : matchPattern ev p = true)
    (huniq : ∀ pb ∈ bus.localHandlers, ∀ g ∈ pb.2,
      g.handlerId = h.handlerId → pb.1 = p ∧ g = h) :
    h ∈ (handleEvent bus ev).1 ∧
    ((handleEvent bus ev).2.localHandlers.all fun pb =>
      pb.2.all fun g => g.handlerId != h.handlerId) = true ∧
    ∀ ev' : String,
      ((handleEvent (handleEvent bus ev).2 ev').1.all fun g =>
        g.handlerId != h.handlerId) = true := by
  have hfire : h ∈ (handleEvent bus ev).1 :=
    mem_handlersToCall.mpr ⟨(p, b), hpb, hmatch, hh⟩
  have habs : ((handleEvent bus ev).2.localHandlers.all fun pb =>
      pb.2.all fun g => g.handlerId != h.handlerId) = true := by
    rw [List.all_eq_true]
    intro pb' hpb'
    rw [List.all_eq_true]
    intro g hg
    rw [bne_iff_ne]
    intro heq
    rcases List.mem_map.mp hpb' with ⟨pb₀, hpb₀, hmap⟩
    by_cases hm : matchPattern ev pb₀.1 = true
    · rw [if_pos hm] at hmap
      subst hmap
      rcases List.mem_filter.mp hg with ⟨hg₀, hpred⟩
      rcases huniq pb₀ hpb₀ g hg₀ heq with ⟨hq, hgh⟩
      have hany : (pb₀.2.any fun g' =>
          g'.once && g'.handlerId == g.handlerId) = true := by
        refine List.any_eq_true.mpr ⟨h, hgh ▸ hg₀, ?_⟩
        rw [honce, hgh]
        simp
      rw [decide_eq_true_eq] at hpred
      exact hpred hany
    · rw [if_neg hm] at hmap
      subst hmap
      rcases huniq pb₀ hpb₀ g hg heq with ⟨hq, _⟩
      exact hm (hq ▸ hmatch)
  refine ⟨hfire, habs, ?_⟩
  intro ev'
  rw [List.all_eq_true]
  intro g hgc
  rcases handleEvent_called_mem_table hgc with ⟨pb', hpb', hg⟩
  exact List.all_eq_true.mp (List.all_eq_true.mp habs pb' hpb') g hg

/-- Witness for C6: a concrete bus with a single `once` handler on pattern
`"ping"`; publishing `"ping"` fires it, empties its bucket, and a second
`"ping"` publish invokes nothing with its id. -/
theorem once_handler_single_fire_witness :
    (⟨"ping", true, 0, 0⟩ : EventHandler) ∈
      (handleEvent ((EventBus.mk [] false false 0).on "ping" true 0).1
        "ping").1 ∧
    (((handleEvent ((EventBus.mk [] false false 0).on "ping" true 0).1
        "ping").2.localHandlers.all fun pb =>
      pb.2.all fun g => g.handlerId != (0 : Nat)) = true) ∧
    (((handleEvent (handleEvent ((EventBus.mk [] false false 0).on "ping"
        true 0).1 "ping").2 "ping").1.all fun g =>
      g.handlerId != (0 : Nat)) = true) :=
  ⟨(once_handler_single_fire ((EventBus.mk [] false false 0).on "ping"
      true 0).1 "ping" "ping" [⟨"ping", true, 0, 0⟩] ⟨"ping", true, 0, 0⟩
      (by decide) (by decide) (by decide) (by decide) (by decide)).1,
   (once_handler_single_fire ((EventBus.mk [] false false 0).on "ping"
      true 0).1 "ping" "ping" [⟨"ping", true, 0, 0⟩] ⟨"ping", true, 0, 0⟩
      (by decide) (by decide) (by decide) (by decide) (by decide)).2.1,
   (once_handler_single_fire ((EventBus.mk [] false false 0).on "ping"
      true 0).1 "ping" "ping" [⟨"ping", true, 0, 0⟩] ⟨"ping", true, 0, 0⟩
      (by decide) (by decide) (by decide) (by decide) (by decide)).2.2
      "ping"⟩

/-- C1, counterexample to the claim as stated.  `demoBusC1` registers three
handlers with equal priority 0, in registration (= id) order 0, 1, 2 —
handler 1 under pattern `"x.a"`, handlers 0 and 2 under the matching
wildcard pattern `"x.*"`.  Publishing `"x.a"` invokes them in order
0, 2, 1: the stable priority sort operates on the concatenation of the
pattern buckets in table order, so equal-priority handlers registered under
different patterns are NOT invoked in global registration order. -/
theorem dispatch_registration_order_cex :
    ((handleEvent demoBusC1 "x.a").1.map (·.handlerId) = [0, 2, 1]) ∧
    ([0, 2, 1] : List Nat) ≠ [0, 1, 2] := by
  decide

/-- C1 (amended): on every publish, the invoked handlers are in descending
priority order; equal-priority handlers registered under the SAME pattern
are invoked in their bucket order — which registration keeps equal to
registration order, since `on` preserves bus well-formedness (ids grow with
registration and every bucket keeps equal-priority handlers in id order).
Across different patterns, equal-priority handlers are grouped by pattern
bucket (in table order), not interleaved by registration time. -/
theorem dispatch_order_amended (bus : EventBus) (ev : String)
    (hwf : BusWF bus) :
    (handlersToCall bus ev).Pairwise (fun a b => b.priority ≤ a.priority) ∧
    (∀ pb ∈ bus.localHandlers, matchPattern ev pb.1 = true →
      ∀ a b : EventHandler, List.Sublist [a, b] pb.2 →
        a.priority = b.priority →
        List.Sublist [a, b] (handlersToCall bus ev)) ∧
    (∀ (pat : String) (once : Bool) (prio : Int),
      BusWF ((bus.on pat once prio).1)) := by
  refine ⟨pairwise_sortByPrioDesc _, ?_, ?_⟩
  · intro pb hpb hmatch a b hab hpr
    have hpb2 : pb.2 ∈ (bus.localHandlers.filter fun q =>
        matchPattern ev q.1).map (·.2) :=
      List.mem_map.mpr ⟨pb, List.mem_filter.mpr ⟨hpb, hmatch⟩, rfl⟩
    have h1 : List.Sublist [a, b]
        ((bus.localHandlers.filter fun q => matchPattern ev q.1).map
          (·.2)).flatten :=
      hab.trans (List.sublist_flatten_of_mem hpb2)
    have hfil : [a, b].filter (fun x => x.priority = a.priority) = [a, b] := by
      simp [List.filter_cons, ← hpr]
    have h2 := h1.filter (fun x => x.priority = a.priority)
    rw [hfil, ← filter_sortByPrioDesc a.priority] at h2
    exact h2.trans (List.filter_sublist _)
  · intro pat once prio pb' hpb'
    rcases mem_dictSet hpb' with hold | hnew
    · obtain ⟨ht, hid⟩ := hwf pb' hold
      exact ⟨ht, fun g hg => Nat.lt_succ_of_lt (hid g hg)⟩
    · have hbk : TieOrdered ((dictFind? bus.localHandlers pat).getD []) ∧
          ∀ g ∈ (dictFind? bus.localHandlers pat).getD [],
            g.handlerId < bus.nextId := by
        cases hb : dictFind? bus.localHandlers pat with
        | none => exact ⟨List.Pairwise.nil, by intro g hg; cases hg⟩
        | some bk => exact hwf (pat, bk) (dictFind?_mem hb)
      have happ : TieOrdered ((dictFind? bus.localHandlers pat).getD [] ++
          [⟨pat, once, prio, bus.nextId⟩]) := by
        rw [TieOrdered, List.pairwise_append]
        refine ⟨hbk.1, List.pairwise_singleton _ _, ?_⟩
        intro x hx y hy
        rw [List.mem_singleton] at hy
        subst hy
        intro _
        exact hbk.2 x hx
      rw [hnew]
      constructor
      · exact tieOrdered_sortByPrioDesc happ
      · intro g hg
        rcases List.mem_append.mp (mem_sortByPrioDesc.mp hg) with hg' | hg'
        · exact Nat.lt_succ_of_lt (hbk.2 g hg')
        · rw [List.mem_singleton] at hg'
          subst hg'
          exact Nat.lt_succ_self _

/-- Witness for the amended C1: the dispatch list of `demoBusC1` for
`"x.a"` is sorted by descending priority (well-formedness discharged by
computation). -/
theorem dispatch_order_amended_witness :
    (handlersToCall demoBusC1 "x.a").Pairwise
      (fun a b => b.priority ≤ a.priority) :=
  (dispatch_order_amended demoBusC1 "x.a"
    (by unfold BusWF TieOrdered; decide)).1

/-- C4, counterexample to the claim as stated.  In `demoLoaderState`, `B`
declared `A` as a dependency (`instB.dependencies = ["A"]`, and `A`'s
dependents set names `B`).  Force-unloading `A` succeeds, but `B`'s
dependency set still contains `"A"` afterwards: the code does NOT detach the
unloaded name from the dependency sets of the extensions that declared it as
a dependency (it only discards the unloaded name from the dependents sets of
the modules that the unloaded module itself depends on — and `A` depends on
nothing). -/
theorem unload_force_detach_cex :
    (unloadModule demoLoaderState "A" true).result.isOk = true ∧
    (dictFind? (unloadModule demoLoaderState "A" true).state.modules "B").map
      (·.dependencies) = some ["A"] ∧
    some (["A"] : List String) ≠ some ([] : List String) := by
  decide

/-- C4 (amended): unloading a loaded `name` with nonempty dependents and
`force=False` fails with the dependency-conflict error naming the blocking
dependents; with `force=True` it succeeds, removes `name` from `modules`,
and discards `name` from the dependents sets of exactly the still-loaded
modules that `name` itself declared as dependencies — while the dependency
sets of every other module are left unchanged. -/
theorem unload_dependency_semantics (s : LoaderState) (name : String)
    (inst : ModuleInstance) (hm : dictFind? s.modules name = some inst) :
    (inst.dependents.isEmpty = false →
      (unloadModule s name false).result =
        Except.error (conflictMsg name inst.dependents)) ∧
    ((unloadModule s name true).result = Except.ok () ∧
     dictFind? (unloadModule s name true).state.modules name = none ∧
     ∀ m : String, m ≠ name →
       ((dictFind? (unloadModule s name true).state.modules m).map
          (·.dependencies) =
            (dictFind? s.modules m).map (·.dependencies) ∧
        (dictFind? (unloadModule s name true).state.modules m).map
          (·.dependents) =
          (dictFind? s.modules m).map (fun d =>
            if m ∈ inst.dependencies then d.dependents.filter (· ≠ name)
            else d.dependents))) := by
  constructor
  · intro hdep
    have hcond : (!false && !inst.dependents.isEmpty) = true := by
      rw [hdep]; rfl
    unfold unloadModule
    simp only [hm, if_pos hcond]
  · have hcond : ¬ ((!true && !inst.dependents.isEmpty) = true) := by simp
    unfold unloadModule
    simp only [hm, if_neg hcond]
    refine ⟨trivial, dictFind?_dictErase_self _ _, ?_⟩
    intro m hmne
    rw [dictFind?_dictErase_ne _ _ _ hmne, dictFind?_detachFold]
    by_cases hmem : m ∈ inst.dependencies
    · rw [if_pos hmem, dictFind?_dictSet_ne _ _ _ _ hmne]
      constructor
      · cases dictFind? s.modules m <;> rfl
      · cases dictFind? s.modules m <;> simp [hmem]
    · rw [if_neg hmem, dictFind?_dictSet_ne _ _ _ _ hmne]
      constructor
      · rfl
      · cases dictFind? s.modules m <;> simp [hmem]

/-- Witness for the amended C4: unloading `A` without force fails with the
conflict naming `B`; with force it succeeds, `A` is gone from `modules`, and
`B`'s sets follow the amended description (its dependents set is untouched
because `A` declared no dependencies). -/
theorem unload_dependency_semantics_witness :
    (unloadModule demoLoaderState "A" false).result =
      Except.error (conflictMsg "A" ["B"]) ∧
    (unloadModule demoLoaderState "A" true).result = Except.ok () ∧
    dictFind? (unloadModule demoLoaderState "A" true).state.modules "A" =
      none ∧
    (dictFind? (unloadModule demoLoaderState "A" true).state.modules "B").map
      (·.dependents) =
      (dictFind? demoLoaderState.modules "B").map (fun d =>
        if "B" ∈ instA.dependencies then d.dependents.filter (· ≠ "A")
        else d.dependents) :=
  ⟨(unload_dependency_semantics demoLoaderState "A" instA (by decide)).1
      (by decide),
   (unload_dependency_semantics demoLoaderState "A" instA (by decide)).2.1,
   (unload_dependency_semantics demoLoaderState "A" instA (by decide)).2.2.1,
   ((unload_dependency_semantics demoLoaderState "A" instA (by decide)).2.2.2
      "B" (by decide)).2⟩

/-- C5: (first part) when the record exists, the entry-point file's current
modification time equals the recorded one, and `force` is false,
`reload_module` is a complete no-op: it returns the state unchanged (reload
counter included) with no error.  (Second part) when the file's modification
time has strictly increased and the module is loaded with no dependents, the
reload succeeds and the record's reload counter ends at exactly its old
value plus 1 (the fresh record written by `load_module` starts at 0 and the
optimistically incremented counter is written back afterwards). -/
theorem reload_shortcircuit_and_counter :
    (∀ (env : LoaderEnv) (s : LoaderState) (name : String)
      (info : ModuleInfo) (t : Nat),
      dictFind? s.moduleInfo name = some info →
      info.lastModified = some t →
      env.fileMtime info.path = some t →
        reloadModule env s name false = ⟨s, Except.ok ()⟩) ∧
    (∀ (env : LoaderEnv) (s : LoaderState) (name : String)
      (info : ModuleInfo) (t t' : Nat) (inst : ModuleInstance),
      dictFind? s.moduleInfo name = some info →
      info.lastModified = some t →
      env.fileMtime info.path = some t' →
      t < t' →
      dictFind? s.modules name = some inst →
      inst.dependents.isEmpty = true →
        (reloadModule env s name false).result = Except.ok () ∧
        (dictFind? (reloadModule env s name false).state.moduleInfo
          name).map (·.reloadCount) = some (info.reloadCount + 1)) := by
  constructor
  · intro env s name info t hinfo hlm hmt
    unfold reloadModule
    simp only [hinfo, hmt, hlm]
    rw [if_pos (by simp)]
  · intro env s name info t t' inst hinfo hlm hmt hlt hm hdep
    have hnle : ¬ (t' ≤ t) := Nat.not_le.mpr hlt
    unfold reloadModule
    simp only [hinfo, hmt, hlm]
    rw [if_neg (by simp [hnle])]
    simp only [hm, Option.isSome_some, if_true]
    rw [unloadModule_ok s name false inst hm (by rw [hdep]; rfl)]
    rw [loadModule_fresh env _ name info.path t'
      (dictFind?_dictErase_self _ _) hmt]
    refine ⟨rfl, ?_⟩
    unfold loadPhase2 setReloadCount setInfoState
    rw [dictFind?_updateInfo_self, dictFind?_updateInfo_self,
      dictFind?_dictSet_self]
    rfl

/-- Witness for C5 at the concrete state: with `B`'s entry point untouched
(mtime 10 = recorded 10) the reload is the identity; after touching it
(mtime 11 > 10) the reload succeeds and `B`'s counter goes from 0 to 1. -/
theorem reload_shortcircuit_and_counter_witness :
    reloadModule demoEnv demoLoaderState "B" false =
      ⟨demoLoaderState, Except.ok ()⟩ ∧
    (reloadModule demoEnvTouchedB demoLoaderState "B" false).result =
      Except.ok () ∧
    (dictFind? (reloadModule demoEnvTouchedB demoLoaderState "B"
      false).state.moduleInfo "B").map (·.reloadCount) = some 1 :=
  ⟨reload_shortcircuit_and_counter.1 demoEnv demoLoaderState "B" infoB 10
      (by decide) (by decide) (by decide),
   (reload_shortcircuit_and_counter.2 demoEnvTouchedB demoLoaderState "B"
      infoB 10 11 instB (by decide) (by decide) (by decide) (by decide)
      (by decide) (by decide)).1,
   (reload_shortcircuit_and_counter.2 demoEnvTouchedB demoLoaderState "B"
      infoB 10 11 instB (by decide) (by decide) (by decide) (by decide)
      (by decide) (by decide)).2⟩

/-- C8, the failing run: two interleaved `reload_module("m", force=True)`
tasks, scheduled as described at `finalC8`, both complete (`pc = 5`), leave
exactly one live instance under `"m"` — but the reload counter ends at 1,
not 2: task 1 read `reload_count` while task 0 was suspended in the
`initialize` hook of its reload's `load_module`, so task 0's increment is
lost.  The counter read/write of `reload_module` happens outside
`self._loading_lock`, which only protects the `load_module`/`unload_module`
bodies. -/
theorem concurrent_reload_lost_update :
    (dictFind? finalC8.shared.moduleInfo "m").map (·.reloadCount) = some 1 ∧
    some 1 ≠ (some 2 : Option Nat) ∧
    finalC8.shared.modules.map Prod.fst = ["m"] ∧
    finalC8.tasks.map (·.pc) = [5, 5] := by
  decide

end MausDash
